import Mathlib

/-!
Shallow embedding of the core state-machine logic of the battery
dashboard (src/battery_streamlit_app.py): the cell registry with its
simulation tick, the historical-sample log, and the task ledger with
its progress driver.  Python floats are modelled as rationals; the
random draws of the source (random.uniform, random.randint) are passed
in as explicit parameters, so that theorems quantify over every
possible outcome of the randomness.
-/

namespace BatteryApp

/-- Rounding to n decimal places, as Python's round(x, n).  (Python
rounds exact halves to even; no property below depends on the
tie-breaking rule, and every concrete evaluation avoids ties.) -/
def roundTo (n : ℕ) (q : ℚ) : ℚ :=
  ((round (q * 10 ^ n) : ℤ) : ℚ) / 10 ^ n

/-- ASCII lower-casing of one character, as Python str.lower on the
ASCII strings used by the app. -/
def lowerChar (c : Char) : Char :=
  if c.toNat ≥ 65 ∧ c.toNat ≤ 90 then Char.ofNat (c.toNat + 32) else c

/-- Python str.lower for the ASCII strings used by the app. -/
def pyLower (s : String) : String :=
  ⟨s.data.map lowerChar⟩

/-- A battery cell record, as built by generate_cell_data. -/
structure Cell where
  cell_id : String
  type : String
  voltage : ℚ
  current : ℚ
  temp : ℚ
  capacity : ℚ
  min_voltage : ℚ
  max_voltage : ℚ
  status : String
  deriving DecidableEq

/-- One entry of st.session_state.historical_data. -/
structure Sample where
  timestamp : ℚ
  cell_id : String
  voltage : ℚ
  current : ℚ
  temp : ℚ
  capacity : ℚ
  deriving DecidableEq

/-- A task record, as built on the Add Tasks page.  Kind-specific
fields are optional, mirroring the dynamic dict of the source. -/
structure Task where
  task_type : String
  cc_cp : Option String := none
  cv_voltage : Option ℚ := none
  voltage : Option ℚ := none
  current : Option ℚ := none
  capacity : Option ℚ := none
  time_seconds : Option ℕ := none
  status : String := "Pending"
  progress : ℕ := 0
  deriving DecidableEq

/-- The st.session_state fields the core logic touches.  Python dicts
preserve insertion order, so they are modelled as association lists
with unique keys; timestamps are rationals (seconds). -/
structure SessionState where
  cells_data : List (String × Cell)
  tasks_data : List (String × Task)
  simulation_running : Bool
  historical_data : List Sample
  current_time : ℕ
  deriving DecidableEq

/-- Python dict assignment d[k] = v: replace in place when the key is
present (keeping its position), append otherwise. -/
def dictAssign {α : Type} (d : List (String × α)) (k : String) (v : α) :
    List (String × α) :=
  if d.any (fun p => p.1 = k) then
    d.map (fun p => if p.1 = k then (k, v) else p)
  else
    d ++ [(k, v)]

/-- generate_cell_data of the source.  currentDraw and tempDraw stand
for random.uniform(0.1, 2.0) and random.uniform(25, 40). -/
def generate_cell_data (cell_type : String) (cell_id : ℕ)
    (currentDraw tempDraw : ℚ) : Cell :=
  let voltage : ℚ := if pyLower cell_type = "lfp" then 32/10 else 36/10
  let min_voltage : ℚ := if pyLower cell_type = "lfp" then 28/10 else 32/10
  let max_voltage : ℚ := if pyLower cell_type = "lfp" then 36/10 else 4
  let current := roundTo 2 currentDraw
  let temp := roundTo 1 tempDraw
  let capacity := roundTo 2 (voltage * current)
  { cell_id := "cell_" ++ toString cell_id ++ "_" ++ cell_type
    type := cell_type
    voltage := voltage
    current := current
    temp := temp
    capacity := capacity
    min_voltage := min_voltage
    max_voltage := max_voltage
    status := "Active" }

/-- The per-cell body of simulate_real_time_data.  d = (voltage_change,
temp_change, current_change), the three random.uniform draws. -/
def tickCell (c : Cell) (d : ℚ × ℚ × ℚ) : Cell :=
  let new_voltage := max c.min_voltage (min c.max_voltage (c.voltage + d.1))
  let new_temp := max 20 (min 50 (c.temp + d.2.1))
  let new_current := max 0 (c.current + d.2.2)
  { c with
    voltage := roundTo 2 new_voltage
    temp := roundTo 1 new_temp
    current := roundTo 2 new_current
    capacity := roundTo 2 (new_voltage * new_current) }

/-- simulate_real_time_data of the source.  draws assigns each cell key
its three random deltas; now is datetime.now() at the moment of the
call.  The whole body, the counter increment included, is guarded by
the registry being non-empty. -/
def simulate_real_time_data (draws : String → ℚ × ℚ × ℚ) (now : ℚ)
    (s : SessionState) : SessionState :=
  if s.cells_data = [] then s
  else
    let updated := s.cells_data.map (fun p => (p.1, tickCell p.2 (draws p.1)))
    let ts := now + (s.current_time : ℚ)
    let samples := updated.map (fun p =>
      { timestamp := ts
        cell_id := p.1
        voltage := p.2.voltage
        current := p.2.current
        temp := p.2.temp
        capacity := p.2.capacity : Sample })
    { s with
      cells_data := updated
      historical_data := s.historical_data ++ samples
      current_time := s.current_time + 1 }

/-- A sequence of ticks: each step carries the random draws and the
wall clock of that tick. -/
def runTicks (steps : List ((String → ℚ × ℚ × ℚ) × ℚ)) (s : SessionState) :
    SessionState :=
  steps.foldl (fun st step => simulate_real_time_data step.1 step.2 st) s

/-- The Add Cells submit handler: start_id = len(cells)+1 is read once,
then count cells are assigned under keys cell_{start_id+i}_{type}. -/
def create_cells (cell_type : String) (count : ℕ) (draws : ℕ → ℚ × ℚ)
    (cells : List (String × Cell)) : List (String × Cell) :=
  let start_id := cells.length + 1
  (List.range count).foldl
    (fun d i =>
      dictAssign d
        ("cell_" ++ toString (start_id + i) ++ "_" ++ pyLower cell_type)
        (generate_cell_data (pyLower cell_type) (start_id + i)
          (draws i).1 (draws i).2))
    cells

/-- The Add Cells page as a state transformer. -/
def setup_cells (cell_type : String) (count : ℕ) (draws : ℕ → ℚ × ℚ)
    (s : SessionState) : SessionState :=
  { s with cells_data := create_cells cell_type count draws s.cells_data }

/-- The Clear All Cells button: empties registry and history. -/
def clear_all_cells (s : SessionState) : SessionState :=
  { s with cells_data := [], historical_data := [] }

/-- The Clear History button: empties history and resets the counter. -/
def clear_history (s : SessionState) : SessionState :=
  { s with historical_data := [], current_time := 0 }

/-- The Add Task submit handler: id = task_{len+1}, status Pending,
progress 0, then dict assignment. -/
def add_task (td : Task) (l : List (String × Task)) : List (String × Task) :=
  dictAssign l ("task_" ++ toString (l.length + 1))
    { td with status := "Pending", progress := 0 }

/-- The Start button of a task: sets its status to Running. -/
def start_task (id : String) (l : List (String × Task)) :
    List (String × Task) :=
  l.map (fun p => if p.1 = id then (p.1, { p.2 with status := "Running" }) else p)

/-- The Delete button of a task: removes its entry. -/
def delete_task (id : String) (l : List (String × Task)) :
    List (String × Task) :=
  l.filter (fun p => ¬ p.1 = id)

/-- The per-task body of the Real-time Analysis progress loop; r stands
for random.randint(1, 5). -/
def advanceTask (t : Task) (r : ℕ) : Task :=
  if t.status = "Running" then
    let progress := min 100 (t.progress + r)
    if progress ≥ 100 then
      { t with progress := progress, status := "Completed" }
    else
      { t with progress := progress }
  else t

/-- One rendering of the Real-time Analysis task loop over the whole
ledger; incs assigns each task key its random increment. -/
def advance_progress (incs : String → ℕ) (l : List (String × Task)) :
    List (String × Task) :=
  l.map (fun p => (p.1, advanceTask p.2 (incs p.1)))

/-- n successive renderings of the task loop; incs i gives the random
increments of rendering i. -/
def advanceRounds (incs : ℕ → String → ℕ) (n : ℕ)
    (l : List (String × Task)) : List (String × Task) :=
  (List.range n).foldl (fun acc i => advance_progress (incs i) acc) l

/-- n successive advance steps of a single task. -/
def iterAdvTask (rs : ℕ → ℕ) : ℕ → Task → Task
  | 0, t => t
  | n + 1, t => advanceTask (iterAdvTask rs n t) (rs n)

/-- Random draws that leave every cell unchanged (all deltas zero). -/
def zeroDraws : String → ℚ × ℚ × ℚ :=
  fun _ => (0, 0, 0)

/-- Random draws with voltage delta 0.014 and current delta 0.014,
both inside the sampled ranges of the source. -/
def smallDraws : String → ℚ × ℚ × ℚ :=
  fun _ => (7/500, 0, 7/500)

/-- An LFP cell as created with current draw 1.0 A and temp draw 30. -/
def lfpCell : Cell :=
  generate_cell_data "lfp" 1 1 30

/-- A session holding exactly that one LFP cell, before any tick. -/
def oneCellState : SessionState :=
  { cells_data := [("cell_1_lfp", lfpCell)]
    tasks_data := []
    simulation_running := false
    historical_data := []
    current_time := 0 }

/-- A session with an empty registry. -/
def emptyCellState : SessionState :=
  { cells_data := []
    tasks_data := []
    simulation_running := false
    historical_data := []
    current_time := 0 }

/-- A session with an empty registry whose tick counter is already 7. -/
def counterState : SessionState :=
  { cells_data := []
    tasks_data := []
    simulation_running := false
    historical_data := []
    current_time := 7 }

/-- The state after ticking oneCellState once at wall clock 100 and
once more at wall clock 105. -/
def twoTickState : SessionState :=
  simulate_real_time_data zeroDraws 105
    (simulate_real_time_data zeroDraws 100 oneCellState)

/-- An IDLE task with time_seconds 1800, as the Add Tasks form builds
it. -/
def idleTask : Task :=
  { task_type := "IDLE", time_seconds := some 1800 }

/-- The same IDLE task once started (status Running, progress 0). -/
def startedIdleTask : Task :=
  { task_type := "IDLE", time_seconds := some 1800, status := "Running" }

/-- The ledger obtained by adding one IDLE task and starting it. -/
def startedLedger : List (String × Task) :=
  start_task "task_1" (add_task idleTask [])

/-- A ledger reached after a deletion: two tasks added, the first one
deleted, leaving only the key task_2. -/
def deletedLedger : List (String × Task) :=
  delete_task "task_1" (add_task idleTask (add_task idleTask []))

/-- A task that has just reached progress 100 through an advance step
and is therefore Completed. -/
def completedTask : Task :=
  advanceTask
    { task_type := "IDLE", time_seconds := some 1800,
      status := "Running", progress := 98 } 3

/-- The increment schedule that always draws 1 (a legal outcome of
random.randint(1, 5)). -/
def incs30 : ℕ → String → ℕ :=
  fun _ _ => 1

/-- The increment schedule that always draws 3. -/
def incs3 : String → ℕ :=
  fun _ => 3

/-- What one rendering of the progress loop does to one ledger entry,
stated in the words of the claim: key kept; a Running task gets
progress min(100, progress + r) for some r in 1..5 and is Completed
exactly when the new progress reaches 100; a non-Running task is
untouched. -/
def AdvanceRel (p q : String × Task) : Prop :=
  q.1 = p.1 ∧
  (p.2.status = "Running" →
    ∃ r, 1 ≤ r ∧ r ≤ 5 ∧ q.2.progress = min 100 (p.2.progress + r) ∧
      (q.2.status = "Completed" ↔ q.2.progress = 100) ∧
      (q.2.progress < 100 → q.2.status = "Running")) ∧
  (p.2.status ≠ "Running" → q.2 = p.2)

/-- A rational representable with n decimal places. -/
def DecimalPlaces (n : ℕ) (q : ℚ) : Prop :=
  ∃ m : ℤ, q = m / 10 ^ n

/-- Well-formedness of a cell's voltage bounds, as established at
creation: both bounds have at most two decimal places and are ordered.
Every registry state the program builds satisfies this (the bounds are
2.8, 3.6 or 3.2, 4.0, and a tick never touches them). -/
def CellWF (c : Cell) : Prop :=
  DecimalPlaces 2 c.min_voltage ∧ DecimalPlaces 2 c.max_voltage ∧
    c.min_voltage ≤ c.max_voltage

/-- Well-formedness of every cell of the registry. -/
def CellsWF (s : SessionState) : Prop :=
  ∀ p ∈ s.cells_data, CellWF p.2

/-- The telemetry ranges claimed for a cell: voltage within its own
bounds, temperature within 20..50, current non-negative. -/
def InRange (c : Cell) : Prop :=
  c.min_voltage ≤ c.voltage ∧ c.voltage ≤ c.max_voltage ∧
    20 ≤ c.temp ∧ c.temp ≤ 50 ∧ 0 ≤ c.current

theorem round_mono_q {x y : ℚ} (h : x ≤ y) : round x ≤ round y := by
  rw [round_eq, round_eq]
  exact Int.floor_le_floor (by linarith)

theorem roundTo_mono (n : ℕ) {x y : ℚ} (h : x ≤ y) :
    roundTo n x ≤ roundTo n y := by
  have h10 : (0 : ℚ) < 10 ^ n := by positivity
  have hr : round (x * 10 ^ n) ≤ round (y * 10 ^ n) :=
    round_mono_q (mul_le_mul_of_nonneg_right h h10.le)
  unfold roundTo
  gcongr


theorem roundTo_eq_self {n : ℕ} {x : ℚ} (m : ℤ) (hm : x = m / 10 ^ n) :
    roundTo n x = x := by
  have h10 : (10 : ℚ) ^ n ≠ 0 := by positivity
  unfold roundTo
  rw [hm, div_mul_cancel₀ _ h10, round_intCast]

theorem roundTo_nonneg (n : ℕ) {x : ℚ} (h : 0 ≤ x) : 0 ≤ roundTo n x := by
  have h0 : roundTo n 0 = 0 := roundTo_eq_self 0 (by simp)
  calc (0 : ℚ) = roundTo n 0 := h0.symm
    _ ≤ roundTo n x := roundTo_mono n h

/-- A tick keeps each well-formed cell inside its claimed ranges:
clamping puts the raw value inside, and rounding cannot escape because
the range endpoints are themselves exact at the rounded precision. -/
theorem tickCell_inRange (c : Cell) (h : CellWF c) (d : ℚ × ℚ × ℚ) :
    InRange (tickCell c d) := by
  obtain ⟨⟨mlo, hlo⟩, ⟨mhi, hhi⟩, hle⟩ := h
  have hv1 : c.min_voltage ≤ max c.min_voltage (min c.max_voltage (c.voltage + d.1)) :=
    le_max_left _ _
  have hv2 : max c.min_voltage (min c.max_voltage (c.voltage + d.1)) ≤ c.max_voltage :=
    max_le hle (min_le_left _ _)
  have ht1 : (20 : ℚ) ≤ max 20 (min 50 (c.temp + d.2.1)) := le_max_left _ _
  have ht2 : max (20 : ℚ) (min 50 (c.temp + d.2.1)) ≤ 50 :=
    max_le (by norm_num) (min_le_left _ _)
  refine ⟨?_, ?_, ?_, ?_, ?_⟩
  · calc c.min_voltage = roundTo 2 c.min_voltage := (roundTo_eq_self mlo hlo).symm
      _ ≤ _ := roundTo_mono 2 hv1
  · calc (tickCell c d).voltage ≤ roundTo 2 c.max_voltage := roundTo_mono 2 hv2
      _ = c.max_voltage := roundTo_eq_self mhi hhi
  · calc (20 : ℚ) = roundTo 1 20 := (roundTo_eq_self 200 (by norm_num)).symm
      _ ≤ _ := roundTo_mono 1 ht1
  · calc (tickCell c d).temp ≤ roundTo 1 50 := roundTo_mono 1 ht2
      _ = 50 := roundTo_eq_self 500 (by norm_num)
  · exact roundTo_nonneg 2 (le_max_left _ _)

theorem tickCell_wf (c : Cell) (h : CellWF c) (d : ℚ × ℚ × ℚ) :
    CellWF (tickCell c d) := h

theorem simulate_inRange (draws : String → ℚ × ℚ × ℚ) (now : ℚ)
    (s : SessionState) (h : CellsWF s) :
    ∀ p ∈ (simulate_real_time_data draws now s).cells_data, InRange p.2 := by
  intro p hp
  unfold simulate_real_time_data at hp
  split at hp
  · next hnil => rw [hnil] at hp; exact absurd hp (List.not_mem_nil p)
  · simp only [List.mem_map] at hp
    obtain ⟨q, hq, rfl⟩ := hp
    exact tickCell_inRange q.2 (h q hq) (draws q.1)

theorem simulate_wf (draws : String → ℚ × ℚ × ℚ) (now : ℚ)
    (s : SessionState) (h : CellsWF s) :
    CellsWF (simulate_real_time_data draws now s) := by
  intro p hp
  unfold simulate_real_time_data at hp
  split at hp
  · exact h p hp
  · simp only [List.mem_map] at hp
    obtain ⟨q, hq, rfl⟩ := hp
    exact tickCell_wf q.2 (h q hq) (draws q.1)

theorem runTicks_inRange (steps : List ((String → ℚ × ℚ × ℚ) × ℚ))
    (hne : steps ≠ []) (s : SessionState) (h : CellsWF s) :
    ∀ p ∈ (runTicks steps s).cells_data, InRange p.2 := by
  induction steps generalizing s with
  | nil => exact absurd rfl hne
  | cons step rest ih =>
    rcases eq_or_ne rest [] with hr | hr
    · subst hr
      exact simulate_inRange step.1 step.2 s h
    · exact ih hr (simulate_real_time_data step.1 step.2 s)
        (simulate_wf step.1 step.2 s h)

theorem pyLower_LFP : pyLower "LFP" = "lfp" := by decide

theorem pyLower_NMC : pyLower "NMC" = "nmc" := by decide

theorem pyLower_lfp : pyLower "lfp" = "lfp" := by decide

theorem pyLower_nmc : pyLower "nmc" = "nmc" := by decide

theorem lfpCell_wf : CellWF lfpCell := by
  refine ⟨⟨280, ?_⟩, ⟨360, ?_⟩, ?_⟩ <;>
    norm_num [lfpCell, generate_cell_data, pyLower_lfp]

theorem oneCellState_wf : CellsWF oneCellState := by
  intro p hp
  simp only [oneCellState, List.mem_singleton] at hp
  subst hp
  exact lfpCell_wf

/-- C2: for every sequence of simulation ticks applied to a registry
state (whose cells carry the two-decimal, ordered voltage bounds that
creation establishes and ticks preserve), after every tick of the
sequence each cell's voltage lies within its own bounds, its
temperature within 20..50, and its current is non-negative. -/
theorem ticks_preserve_cell_ranges (s : SessionState) (hwf : CellsWF s)
    (steps : List ((String → ℚ × ℚ × ℚ) × ℚ)) (i : ℕ)
    (hi : i < steps.length) :
    ∀ p ∈ (runTicks (List.take (i + 1) steps) s).cells_data, InRange p.2 := by
  apply runTicks_inRange _ ?_ s hwf
  intro hcon
  have hlen : (List.take (i + 1) steps).length = 0 := by rw [hcon]; rfl
  rw [List.length_take] at hlen
  omega

/-- Witness for ticks_preserve_cell_ranges: a one-cell LFP registry
ticked once. -/
theorem ticks_preserve_cell_ranges_witness :
    CellsWF oneCellState ∧ 0 < [(zeroDraws, (0 : ℚ))].length ∧
      ∀ p ∈ (runTicks (List.take 1 [(zeroDraws, (0 : ℚ))])
          oneCellState).cells_data, InRange p.2 :=
  ⟨oneCellState_wf, by norm_num,
    ticks_preserve_cell_ranges oneCellState oneCellState_wf
      [(zeroDraws, 0)] 0 (by norm_num)⟩

/-- C1 counterexample: with voltage delta 0.014 and current delta
0.014 (legal draws), the cell stored after a tick has capacity 3.26 =
round2(3.214 × 1.014), while its stored voltage 3.21 and stored
current 1.01 give round2(3.21 × 1.01) = 3.24: the stored capacity is
not the rounded product of the stored voltage and current. -/
theorem tick_capacity_mismatch_example :
    (-(1/20) ≤ (smallDraws "cell_1_lfp").1 ∧ (smallDraws "cell_1_lfp").1 ≤ 1/20 ∧
      -(1/10) ≤ (smallDraws "cell_1_lfp").2.2 ∧
      (smallDraws "cell_1_lfp").2.2 ≤ 1/10) ∧
    ∃ p ∈ (simulate_real_time_data smallDraws 0 oneCellState).cells_data,
      p.2.capacity ≠ roundTo 2 (p.2.voltage * p.2.current) := by
  refine ⟨by norm_num [smallDraws],
    ⟨("cell_1_lfp", tickCell lfpCell (smallDraws "cell_1_lfp")), ?_, ?_⟩⟩
  · simp [simulate_real_time_data, oneCellState]
  · have hv : (tickCell lfpCell (smallDraws "cell_1_lfp")).voltage = 321/100 := by
      norm_num [tickCell, smallDraws, lfpCell, generate_cell_data, pyLower_lfp,
        roundTo, round_eq]
    have hc : (tickCell lfpCell (smallDraws "cell_1_lfp")).current = 101/100 := by
      norm_num [tickCell, smallDraws, lfpCell, generate_cell_data, pyLower_lfp,
        roundTo, round_eq]
    have hcap : (tickCell lfpCell (smallDraws "cell_1_lfp")).capacity = 326/100 := by
      norm_num [tickCell, smallDraws, lfpCell, generate_cell_data, pyLower_lfp,
        roundTo, round_eq]
    rw [hv, hc, hcap]
    norm_num [roundTo, round_eq]

/-- C1 amended: immediately after a tick, each cell's stored capacity
equals voltage × current rounded to 2 decimals where voltage and
current are the clamped but not yet rounded values of that tick (the
source rounds the product of the raw updated values, so the stored
capacity can differ from the rounded product of the stored, rounded
voltage and current). -/
theorem tick_capacity_eq_round_of_unrounded (draws : String → ℚ × ℚ × ℚ)
    (now : ℚ) (s : SessionState) :
    ∀ p ∈ (simulate_real_time_data draws now s).cells_data,
      ∃ c0, (p.1, c0) ∈ s.cells_data ∧
        p.2.capacity = roundTo 2
          (max c0.min_voltage (min c0.max_voltage (c0.voltage + (draws p.1).1)) *
            max 0 (c0.current + (draws p.1).2.2)) := by
  intro p hp
  unfold simulate_real_time_data at hp
  split at hp
  · next hnil => rw [hnil] at hp; exact absurd hp (List.not_mem_nil p)
  · simp only [List.mem_map] at hp
    obtain ⟨q, hq, rfl⟩ := hp
    exact ⟨q.2, hq, rfl⟩

/-- Witness for tick_capacity_eq_round_of_unrounded at the one-cell
registry ticked with the 0.014 deltas. -/
theorem tick_capacity_eq_round_of_unrounded_witness :
    ∃ c0, ("cell_1_lfp", c0) ∈ oneCellState.cells_data ∧
      (tickCell lfpCell (smallDraws "cell_1_lfp")).capacity = roundTo 2
        (max c0.min_voltage (min c0.max_voltage
            (c0.voltage + (smallDraws "cell_1_lfp").1)) *
          max 0 (c0.current + (smallDraws "cell_1_lfp").2.2)) :=
  tick_capacity_eq_round_of_unrounded smallDraws 0 oneCellState
    ("cell_1_lfp", tickCell lfpCell (smallDraws "cell_1_lfp"))
    (by simp [simulate_real_time_data, oneCellState])

/-- C4 counterexample: ticking at wall clock 100 and then at wall
clock 105 stores sample timestamps 100 and 106, and no fixed
session-start instant fits both as start + k × 1: the code stamps
samples with the wall clock of the tick plus the counter, not with the
wall clock captured at session start. -/
theorem tick_timestamp_not_session_start :
    twoTickState.historical_data.map (fun smp => smp.timestamp) = [100, 106] ∧
    ¬ ∃ start : ℚ,
        twoTickState.historical_data.map (fun smp => smp.timestamp) =
          [start + 0 * 1, start + 1 * 1] := by
  have hts : twoTickState.historical_data.map (fun smp => smp.timestamp) =
      [100, 106] := by
    simp [twoTickState, simulate_real_time_data, oneCellState]
    norm_num
  refine ⟨hts, ?_⟩
  rintro ⟨start, hcon⟩
  rw [hts] at hcon
  simp only [List.cons.injEq, List.nil_eq] at hcon
  obtain ⟨h1, h2, -⟩ := hcon
  rw [zero_mul, add_zero] at h1
  rw [one_mul] at h2
  subst h1
  linarith

/-- C4 amended: a tick on a non-empty registry appends one
HistoricalSample per cell (in registry order), and every sample
appended carries the timestamp now + counter × 1 second, where now is
the wall clock at the moment of the tick (not at session start) and
counter is the tick counter before its increment. -/
theorem tick_appends_samples_with_now_offset (draws : String → ℚ × ℚ × ℚ)
    (now : ℚ) (s : SessionState) (h : s.cells_data ≠ []) :
    ∃ new : List Sample,
      (simulate_real_time_data draws now s).historical_data =
        s.historical_data ++ new ∧
      new.length = s.cells_data.length ∧
      new.map (fun smp => smp.cell_id) = s.cells_data.map (fun p => p.1) ∧
      ∀ smp ∈ new, smp.timestamp = now + (s.current_time : ℚ) := by
  unfold simulate_real_time_data
  rw [if_neg h]
  refine ⟨_, rfl, ?_, ?_, ?_⟩
  · simp
  · simp [List.map_map, Function.comp]
  · intro smp hsmp
    simp only [List.mem_map] at hsmp
    obtain ⟨q, hq, rfl⟩ := hsmp
    rfl

/-- Witness for tick_appends_samples_with_now_offset: the one-cell
registry ticked at wall clock 42. -/
theorem tick_appends_samples_with_now_offset_witness :
    oneCellState.cells_data ≠ [] ∧
    ∃ new : List Sample,
      (simulate_real_time_data zeroDraws 42 oneCellState).historical_data =
        oneCellState.historical_data ++ new ∧
      new.length = oneCellState.cells_data.length ∧
      new.map (fun smp => smp.cell_id) =
        oneCellState.cells_data.map (fun p => p.1) ∧
      ∀ smp ∈ new, smp.timestamp = 42 + (oneCellState.current_time : ℚ) :=
  ⟨by simp [oneCellState],
    tick_appends_samples_with_now_offset zeroDraws 42 oneCellState
      (by simp [oneCellState])⟩

/-- C5 counterexample: a tick on an empty registry does not increment
the tick counter (the increment sits inside the non-empty guard). -/
theorem tick_empty_registry_no_increment :
    (simulate_real_time_data zeroDraws 0 emptyCellState).current_time ≠
      emptyCellState.current_time + 1 := by
  simp [simulate_real_time_data, emptyCellState]

/-- C5 amended: a tick increments the tick counter by exactly 1 when
the registry is non-empty, and leaves it unchanged when the registry
is empty. -/
theorem tick_counter_increment_iff_nonempty (draws : String → ℚ × ℚ × ℚ)
    (now : ℚ) (s : SessionState) :
    (s.cells_data ≠ [] →
      (simulate_real_time_data draws now s).current_time = s.current_time + 1) ∧
    (s.cells_data = [] →
      (simulate_real_time_data draws now s).current_time = s.current_time) := by
  constructor
  · intro h
    unfold simulate_real_time_data
    rw [if_neg h]
  · intro h
    unfold simulate_real_time_data
    rw [if_pos h]

/-- Witness for tick_counter_increment_iff_nonempty: the one-cell
registry ticks the counter 0 → 1; the empty registry keeps it at 0. -/
theorem tick_counter_increment_iff_nonempty_witness :
    (oneCellState.cells_data ≠ [] ∧
      (simulate_real_time_data zeroDraws 0 oneCellState).current_time =
        oneCellState.current_time + 1) ∧
    (emptyCellState.cells_data = [] ∧
      (simulate_real_time_data zeroDraws 0 emptyCellState).current_time =
        emptyCellState.current_time) :=
  ⟨⟨by simp [oneCellState],
    (tick_counter_increment_iff_nonempty zeroDraws 0 oneCellState).1
      (by simp [oneCellState])⟩,
   ⟨rfl,
    (tick_counter_increment_iff_nonempty zeroDraws 0 emptyCellState).2 rfl⟩⟩

theorem advanceTask_not_running (t : Task) (r : ℕ)
    (h : ¬ t.status = "Running") : advanceTask t r = t := by
  unfold advanceTask
  rw [if_neg h]

theorem advanceTask_completed (t : Task) (r : ℕ)
    (h : t.status = "Completed") : advanceTask t r = t :=
  advanceTask_not_running t r (by rw [h]; decide)

theorem advanceTask_run_complete (t : Task) (r : ℕ)
    (h : t.status = "Running") (hge : 100 ≤ t.progress + r) :
    advanceTask t r = { t with progress := 100, status := "Completed" } := by
  unfold advanceTask
  rw [if_pos h]
  simp [min_eq_left hge]

theorem advanceTask_run_below (t : Task) (r : ℕ)
    (h : t.status = "Running") (hlt : t.progress + r < 100) :
    advanceTask t r = { t with progress := t.progress + r } := by
  unfold advanceTask
  rw [if_pos h]
  simp only [min_eq_right (le_of_lt hlt)]
  rw [if_neg (by omega : ¬ t.progress + r ≥ 100)]

theorem iterAdvTask_succ (rs : ℕ → ℕ) (n : ℕ) (t : Task) :
    iterAdvTask rs (n + 1) t = advanceTask (iterAdvTask rs n t) (rs n) := rfl

theorem advance_progress_singleton (incs : String → ℕ) (k : String) (t : Task) :
    advance_progress incs [(k, t)] = [(k, advanceTask t (incs k))] := rfl

theorem advanceRounds_succ (incs : ℕ → String → ℕ) (n : ℕ)
    (l : List (String × Task)) :
    advanceRounds incs (n + 1) l =
      advance_progress (incs n) (advanceRounds incs n l) := by
  unfold advanceRounds
  rw [List.range_succ, List.foldl_append]
  rfl

theorem advanceRounds_singleton (incs : ℕ → String → ℕ) (k : String) (t : Task) :
    ∀ n, advanceRounds incs n [(k, t)] =
      [(k, iterAdvTask (fun i => incs i k) n t)] := by
  intro n
  induction n with
  | zero => rfl
  | succ n ih =>
    rw [advanceRounds_succ, ih, advance_progress_singleton, iterAdvTask_succ]

/-- Saturation invariant of the progress loop on a single task started
at progress 0: after n steps with increments ≥ 1, the task is either
Completed at exactly 100, or still Running below 100 with progress at
least n. -/
theorem iterAdvTask_saturates (rs : ℕ → ℕ) (h1 : ∀ i, 1 ≤ rs i) (t : Task)
    (ht : t.status = "Running") (hp : t.progress = 0) :
    ∀ n, ((iterAdvTask rs n t).status = "Completed" ∧
        (iterAdvTask rs n t).progress = 100) ∨
      ((iterAdvTask rs n t).status = "Running" ∧
        (iterAdvTask rs n t).progress < 100 ∧
        n ≤ (iterAdvTask rs n t).progress) := by
  intro n
  induction n with
  | zero =>
    right
    rw [show iterAdvTask rs 0 t = t from rfl]
    exact ⟨ht, by omega, by omega⟩
  | succ n ih =>
    rcases ih with ⟨hc, hp100⟩ | ⟨hr, hlt, hge⟩
    · left
      rw [iterAdvTask_succ, advanceTask_completed _ _ hc]
      exact ⟨hc, hp100⟩
    · rcases Nat.lt_or_ge ((iterAdvTask rs n t).progress + rs n) 100 with hl | hg
      · right
        rw [iterAdvTask_succ, advanceTask_run_below _ _ hr hl]
        have hrs := h1 n
        refine ⟨hr, hl, ?_⟩
        show n + 1 ≤ (iterAdvTask rs n t).progress + rs n
        omega
      · left
        rw [iterAdvTask_succ, advanceTask_run_complete _ _ hr hg]
        exact ⟨rfl, rfl⟩

theorem advanceTask_progress_bounds (t : Task) (r : ℕ) (h : t.progress ≤ 100) :
    t.progress ≤ (advanceTask t r).progress ∧
      (advanceTask t r).progress ≤ 100 := by
  rcases eq_or_ne t.status "Running" with hr | hr
  · rcases Nat.lt_or_ge (t.progress + r) 100 with hlt | hge
    · rw [advanceTask_run_below t r hr hlt]
      exact ⟨Nat.le_add_right _ _, le_of_lt hlt⟩
    · rw [advanceTask_run_complete t r hr hge]
      exact ⟨h, le_refl _⟩
  · rw [advanceTask_not_running t r hr]
    exact ⟨le_refl _, h⟩

theorem iterAdvTask_progress_le_100 (rs : ℕ → ℕ) (t : Task)
    (h : t.progress ≤ 100) : ∀ n, (iterAdvTask rs n t).progress ≤ 100
  | 0 => h
  | n + 1 =>
    (advanceTask_progress_bounds _ (rs n)
      (iterAdvTask_progress_le_100 rs t h n)).2

/-- C3 counterexample: with the legal increment sequence that draws 1
every time, 30 calls to advance_progress on the started IDLE task
leave it Running at progress 30, not Completed at 100. -/
theorem thirty_advances_insufficient :
    (∀ i k, 1 ≤ incs30 i k ∧ incs30 i k ≤ 5) ∧
    (advanceRounds incs30 30 startedLedger).map
        (fun p => (p.1, p.2.progress, p.2.status)) =
      [("task_1", 30, "Running")] :=
  ⟨fun i k => ⟨le_refl 1, by norm_num [incs30]⟩, by decide⟩

/-- C3 amended: starting from the ledger holding exactly the started
IDLE task (status Running, progress 0), after any 100 calls to
advance_progress — for every sequence of random increments drawn from
1..5 — the task's progress equals 100 and its status is Completed
(each call adds at least 1, so 100 calls guarantee saturation). -/
theorem hundred_advances_complete (incs : ℕ → String → ℕ)
    (h1 : ∀ i k, 1 ≤ incs i k) (h5 : ∀ i k, incs i k ≤ 5) :
    ∃ t, advanceRounds incs 100 startedLedger = [("task_1", t)] ∧
      t.progress = 100 ∧ t.status = "Completed" := by
  have hled : startedLedger = [("task_1", startedIdleTask)] := by decide
  rw [hled, advanceRounds_singleton]
  refine ⟨_, rfl, ?_⟩
  have hsat := iterAdvTask_saturates (fun i => incs i "task_1")
    (fun i => h1 i "task_1") startedIdleTask rfl rfl 100
  rcases hsat with ⟨hc, hp⟩ | ⟨-, hlt, hge⟩
  · exact ⟨hp, hc⟩
  · omega

/-- Witness for hundred_advances_complete with every increment 1. -/
theorem hundred_advances_complete_witness :
    (∀ i k, 1 ≤ incs30 i k) ∧ (∀ i k, incs30 i k ≤ 5) ∧
    ∃ t, advanceRounds incs30 100 startedLedger = [("task_1", t)] ∧
      t.progress = 100 ∧ t.status = "Completed" :=
  ⟨fun i k => le_refl 1, fun i k => by norm_num [incs30],
    hundred_advances_complete incs30 (fun i k => le_refl 1)
      (fun i k => by norm_num [incs30])⟩

/-- C6 counterexample: after adding two tasks and deleting task_1, the
ledger holds only task_2 and has size 1, so the next add computes id
task_2, overwrites the existing entry in place, and the ledger size
stays 1 instead of growing by 1. -/
theorem add_task_after_delete_overwrites :
    deletedLedger.map (fun p => p.1) = ["task_2"] ∧
    (add_task idleTask deletedLedger).length ≠ deletedLedger.length + 1 := by
  constructor
  · decide
  · decide

/-- C6 amended: add_task appends a new Task with status Pending,
progress 0 and id task_{n+1} (n the current ledger size), growing the
ledger by exactly 1 — provided the id task_{n+1} is not already a key
of the ledger (always true in deletion-free histories); when the id is
already present, as can happen after deletions, the existing entry is
overwritten in place and the size is unchanged. -/
theorem add_task_appends_when_id_fresh (td : Task) (l : List (String × Task))
    (h : ∀ p ∈ l, p.1 ≠ "task_" ++ toString (l.length + 1)) :
    add_task td l =
      l ++ [("task_" ++ toString (l.length + 1),
        { td with status := "Pending", progress := 0 })] ∧
    (add_task td l).length = l.length + 1 := by
  have hne : ¬ (l.any
      (fun p => p.1 = "task_" ++ toString (l.length + 1)) = true) := by
    simp only [List.any_eq_true, decide_eq_true_eq]
    rintro ⟨p, hp, hpk⟩
    exact h p hp hpk
  constructor
  · unfold add_task dictAssign
    rw [if_neg hne]
  · unfold add_task dictAssign
    rw [if_neg hne]
    simp

/-- Witness for add_task_appends_when_id_fresh: adding to the empty
ledger. -/
theorem add_task_appends_when_id_fresh_witness :
    (∀ p ∈ ([] : List (String × Task)),
      p.1 ≠ "task_" ++ toString (([] : List (String × Task)).length + 1)) ∧
    (add_task idleTask [] =
      [] ++ [("task_" ++ toString (([] : List (String × Task)).length + 1),
        { idleTask with status := "Pending", progress := 0 })] ∧
    (add_task idleTask ([] : List (String × Task))).length =
      ([] : List (String × Task)).length + 1) :=
  ⟨fun p hp => absurd hp (List.not_mem_nil p),
    add_task_appends_when_id_fresh idleTask []
      (fun p hp => absurd hp (List.not_mem_nil p))⟩

/-- C7: one call to advance_progress relates the old ledger to the new
one entrywise: keys are kept; each Running task's progress becomes
min(100, progress + r) for some r in 1..5, with status Completed
exactly when the new progress reaches 100 and Running otherwise; each
non-Running task is completely unchanged. -/
theorem advance_progress_spec (incs : String → ℕ)
    (h : ∀ k, 1 ≤ incs k ∧ incs k ≤ 5) (l : List (String × Task)) :
    List.Forall₂ AdvanceRel l (advance_progress incs l) := by
  induction l with
  | nil => exact List.Forall₂.nil
  | cons p rest ih =>
    refine List.Forall₂.cons ⟨rfl, ?_, ?_⟩ ih
    · intro hrun
      refine ⟨incs p.1, (h p.1).1, (h p.1).2, ?_⟩
      rcases Nat.lt_or_ge (p.2.progress + incs p.1) 100 with hlt | hge
      · have heq := advanceTask_run_below p.2 (incs p.1) hrun hlt
        have hst : (advanceTask p.2 (incs p.1)).status = "Running" := by
          rw [heq]; exact hrun
        have hpr : (advanceTask p.2 (incs p.1)).progress =
            p.2.progress + incs p.1 := by rw [heq]
        refine ⟨?_, ?_, fun _ => hst⟩
        · rw [hpr]; omega
        · rw [hst, hpr]
          constructor
          · intro hx; exact absurd hx (by decide)
          · intro hx; exact absurd hx (by omega)
      · have heq := advanceTask_run_complete p.2 (incs p.1) hrun hge
        have hst : (advanceTask p.2 (incs p.1)).status = "Completed" := by
          rw [heq]
        have hpr : (advanceTask p.2 (incs p.1)).progress = 100 := by rw [heq]
        refine ⟨?_, ?_, ?_⟩
        · rw [hpr]; omega
        · rw [hst, hpr]; simp
        · intro hx; rw [hpr] at hx; exact absurd hx (by omega)
    · intro hnot
      exact advanceTask_not_running p.2 (incs p.1) hnot

/-- Witness for advance_progress_spec: a two-task ledger, one Running
and one Pending, advanced with increment 3. -/
theorem advance_progress_spec_witness :
    (∀ k, 1 ≤ incs3 k ∧ incs3 k ≤ 5) ∧
    List.Forall₂ AdvanceRel [("task_1", startedIdleTask), ("task_2", idleTask)]
      (advance_progress incs3 [("task_1", startedIdleTask), ("task_2", idleTask)]) :=
  ⟨fun k => ⟨by norm_num [incs3], by norm_num [incs3]⟩,
    advance_progress_spec incs3
      (fun k => ⟨by norm_num [incs3], by norm_num [incs3]⟩)
      [("task_1", startedIdleTask), ("task_2", idleTask)]⟩

/-- C8 counterexample: a task that reached progress 100 and status
Completed through an advance step is set back to Running by
start_task, so Completed is not preserved under every subsequent
operation. -/
theorem start_task_reverts_completed :
    completedTask.progress = 100 ∧ completedTask.status = "Completed" ∧
    (start_task "task_1" [("task_1", completedTask)]).map
        (fun p => p.2.status) = ["Running"] := by
  refine ⟨by decide, by decide, by decide⟩

/-- C8 amended: across successive advance_progress calls a task's
progress is monotonically non-decreasing (given the 0..100 progress
invariant); the moment an advance step brings a Running task's
progress to 100 its status becomes Completed; and a Completed task is
never changed again by advance_progress — start_task, however, can set
a Completed task back to Running. -/
theorem progress_monotone_completed_persists (t : Task) (rs : ℕ → ℕ)
    (ht : t.progress ≤ 100) (n m : ℕ) (hnm : n ≤ m) :
    (iterAdvTask rs n t).progress ≤ (iterAdvTask rs m t).progress ∧
    ((iterAdvTask rs n t).status = "Running" →
      (iterAdvTask rs (n + 1) t).progress = 100 →
      (iterAdvTask rs (n + 1) t).status = "Completed") ∧
    ((iterAdvTask rs n t).status = "Completed" →
      iterAdvTask rs m t = iterAdvTask rs n t) := by
  refine ⟨?_, ?_, ?_⟩
  · induction m, hnm using Nat.le_induction with
    | base => exact le_refl _
    | succ m hm ih =>
      rw [iterAdvTask_succ]
      exact le_trans ih (advanceTask_progress_bounds _ (rs m)
        (iterAdvTask_progress_le_100 rs t ht m)).1
  · intro hrun hp100
    rcases Nat.lt_or_ge ((iterAdvTask rs n t).progress + rs n) 100 with hl | hg
    · exfalso
      rw [iterAdvTask_succ, advanceTask_run_below _ _ hrun hl] at hp100
      have : (iterAdvTask rs n t).progress + rs n = 100 := hp100
      omega
    · rw [iterAdvTask_succ, advanceTask_run_complete _ _ hrun hg]
  · intro hc
    induction m, hnm using Nat.le_induction with
    | base => rfl
    | succ m hm ih =>
      rw [iterAdvTask_succ, ih, advanceTask_completed _ _ hc]

/-- Witness for progress_monotone_completed_persists at the started
IDLE task with increment 5, from step 0 to step 2. -/
theorem progress_monotone_completed_persists_witness :
    startedIdleTask.progress ≤ 100 ∧ (0 : ℕ) ≤ 2 ∧
    ((iterAdvTask (fun _ => 5) 0 startedIdleTask).progress ≤
        (iterAdvTask (fun _ => 5) 2 startedIdleTask).progress ∧
      ((iterAdvTask (fun _ => 5) 0 startedIdleTask).status = "Running" →
        (iterAdvTask (fun _ => 5) (0 + 1) startedIdleTask).progress = 100 →
        (iterAdvTask (fun _ => 5) (0 + 1) startedIdleTask).status =
          "Completed") ∧
      ((iterAdvTask (fun _ => 5) 0 startedIdleTask).status = "Completed" →
        iterAdvTask (fun _ => 5) 2 startedIdleTask =
          iterAdvTask (fun _ => 5) 0 startedIdleTask)) :=
  ⟨by norm_num [startedIdleTask], by norm_num,
    progress_monotone_completed_persists startedIdleTask (fun _ => 5)
      (by norm_num [startedIdleTask]) 0 2 (by norm_num)⟩

theorem mem_dictAssign {α : Type} (d : List (String × α)) (k : String) (v : α)
    (p : String × α) (hp : p ∈ dictAssign d k v) : p ∈ d ∨ p = (k, v) := by
  unfold dictAssign at hp
  split at hp
  · simp only [List.mem_map] at hp
    obtain ⟨q, hq, hqe⟩ := hp
    by_cases hqk : q.1 = k
    · rw [if_pos hqk] at hqe
      exact Or.inr hqe.symm
    · rw [if_neg hqk] at hqe
      exact Or.inl (hqe ▸ hq)
  · rcases List.mem_append.mp hp with h1 | h2
    · exact Or.inl h1
    · right
      simpa using h2

theorem mem_foldl_dictAssign {α : Type} (keyf : ℕ → String) (valf : ℕ → α) :
    ∀ (ks : List ℕ) (d : List (String × α)) (p : String × α),
      p ∈ ks.foldl (fun acc i => dictAssign acc (keyf i) (valf i)) d →
      p ∈ d ∨ ∃ i ∈ ks, p = (keyf i, valf i) := by
  intro ks
  induction ks with
  | nil =>
    intro d p hp
    exact Or.inl hp
  | cons a rest ih =>
    intro d p hp
    rcases ih (dictAssign d (keyf a) (valf a)) p hp with hd | ⟨i, hi, hpe⟩
    · rcases mem_dictAssign _ _ _ _ hd with h1 | h2
      · exact Or.inl h1
      · exact Or.inr ⟨a, List.mem_cons_self a rest, h2⟩
    · exact Or.inr ⟨i, List.mem_cons_of_mem a hi, hpe⟩

/-- C9: every cell created by create_cells (for either chemistry and
any count in 1..20) carries the chemistry's exact nominal voltage and
bounds — LFP: 3.2 V in 2.8..3.6, NMC: 3.6 V in 3.2..4.0 — and a
capacity equal to voltage × current rounded to 2 decimals. -/
theorem create_cells_initial_values (cell_type : String)
    (hct : cell_type = "LFP" ∨ cell_type = "NMC")
    (count : ℕ) (h1 : 1 ≤ count) (h20 : count ≤ 20)
    (draws : ℕ → ℚ × ℚ) (cells : List (String × Cell)) :
    ∀ p ∈ create_cells cell_type count draws cells, p ∈ cells ∨
      ((cell_type = "LFP" → p.2.voltage = 32/10 ∧ p.2.min_voltage = 28/10 ∧
          p.2.max_voltage = 36/10) ∧
        (cell_type = "NMC" → p.2.voltage = 36/10 ∧ p.2.min_voltage = 32/10 ∧
          p.2.max_voltage = 4) ∧
        p.2.capacity = roundTo 2 (p.2.voltage * p.2.current)) := by
  intro p hp
  unfold create_cells at hp
  rcases mem_foldl_dictAssign _ _ (List.range count) cells p hp
    with hd | ⟨i, hi, hpe⟩
  · exact Or.inl hd
  · right
    have hp2 : p.2 = generate_cell_data (pyLower cell_type)
        (cells.length + 1 + i) (draws i).1 (draws i).2 := by rw [hpe]
    rcases hct with hL | hN
    · subst hL
      rw [hp2, pyLower_LFP]
      refine ⟨fun _ => ?_, fun hx => absurd hx (by decide), ?_⟩
      · refine ⟨?_, ?_, ?_⟩ <;> norm_num [generate_cell_data, pyLower_lfp]
      · rfl
    · subst hN
      rw [hp2, pyLower_NMC]
      refine ⟨fun hx => absurd hx (by decide), fun _ => ?_, ?_⟩
      · refine ⟨?_, ?_, ?_⟩ <;>
          norm_num [generate_cell_data, pyLower_nmc,
            show ¬("nmc" = "lfp") from by decide]
      · rfl

/-- Witness for create_cells_initial_values: two LFP cells created in
an empty registry. -/
theorem create_cells_initial_values_witness :
    ("LFP" = "LFP" ∨ "LFP" = "NMC") ∧ 1 ≤ 2 ∧ 2 ≤ 20 ∧
    ∀ p ∈ create_cells "LFP" 2 (fun _ => (1, 30)) [],
      p ∈ ([] : List (String × Cell)) ∨
      (("LFP" = "LFP" → p.2.voltage = 32/10 ∧ p.2.min_voltage = 28/10 ∧
          p.2.max_voltage = 36/10) ∧
        ("LFP" = "NMC" → p.2.voltage = 36/10 ∧ p.2.min_voltage = 32/10 ∧
          p.2.max_voltage = 4) ∧
        p.2.capacity = roundTo 2 (p.2.voltage * p.2.current)) :=
  ⟨Or.inl rfl, by norm_num, by norm_num,
    create_cells_initial_values "LFP" (Or.inl rfl) 2 (by norm_num)
      (by norm_num) (fun _ => (1, 30)) []⟩

theorem dictAssign_ne_nil {α : Type} (d : List (String × α)) (k : String)
    (v : α) : dictAssign d k v ≠ [] := by
  unfold dictAssign
  split
  · next hany =>
    intro hcon
    rw [List.map_eq_nil_iff] at hcon
    rw [hcon] at hany
    exact absurd hany (by simp)
  · intro hcon
    rcases List.append_eq_nil.mp hcon with ⟨-, h2⟩
    exact absurd h2 (by simp)

theorem create_cells_ne_nil (cell_type : String) (count : ℕ)
    (draws : ℕ → ℚ × ℚ) (cells : List (String × Cell)) (h : 1 ≤ count) :
    create_cells cell_type count draws cells ≠ [] := by
  unfold create_cells
  obtain ⟨m, rfl⟩ : ∃ m, count = m + 1 := ⟨count - 1, by omega⟩
  rw [List.range_succ, List.foldl_append]
  exact dictAssign_ne_nil _ _ _

/-- C10: Clear All Cells empties the registry and the history but
keeps the tick counter (and the task ledger); Clear History empties
the history and resets the counter to 0 but keeps the registry; and
after Clear All Cells, creating cells and ticking stamps the new
samples with now + the pre-clear counter value. -/
theorem clear_semantics (s : SessionState) (cell_type : String) (count : ℕ)
    (hc : 1 ≤ count) (cdraws : ℕ → ℚ × ℚ) (draws : String → ℚ × ℚ × ℚ)
    (now : ℚ) :
    (clear_all_cells s).cells_data = [] ∧
    (clear_all_cells s).historical_data = [] ∧
    (clear_all_cells s).current_time = s.current_time ∧
    (clear_all_cells s).tasks_data = s.tasks_data ∧
    (clear_history s).historical_data = [] ∧
    (clear_history s).current_time = 0 ∧
    (clear_history s).cells_data = s.cells_data ∧
    ((simulate_real_time_data draws now
        (setup_cells cell_type count cdraws
          (clear_all_cells s))).historical_data ≠ [] ∧
      ∀ smp ∈ (simulate_real_time_data draws now
          (setup_cells cell_type count cdraws
            (clear_all_cells s))).historical_data,
        smp.timestamp = now + (s.current_time : ℚ)) := by
  have hne : (setup_cells cell_type count cdraws
      (clear_all_cells s)).cells_data ≠ [] :=
    create_cells_ne_nil _ _ _ _ hc
  refine ⟨rfl, rfl, rfl, rfl, rfl, rfl, rfl, ?_, ?_⟩
  · unfold simulate_real_time_data
    rw [if_neg hne]
    intro hcon
    rcases List.append_eq_nil.mp hcon with ⟨-, hsm⟩
    rw [List.map_eq_nil_iff, List.map_eq_nil_iff] at hsm
    exact hne hsm
  · intro smp hsmp
    unfold simulate_real_time_data at hsmp
    rw [if_neg hne] at hsmp
    rcases List.mem_append.mp hsmp with hl | hr
    · rw [show (setup_cells cell_type count cdraws
          (clear_all_cells s)).historical_data = [] from rfl] at hl
      exact absurd hl (List.not_mem_nil smp)
    · simp only [List.mem_map] at hr
      obtain ⟨q, hq, rfl⟩ := hr
      rfl

/-- Witness for clear_semantics: a state with counter 7, cleared, one
LFP cell created, ticked at wall clock 1000. -/
theorem clear_semantics_witness :
    1 ≤ 1 ∧
    ((clear_all_cells counterState).cells_data = [] ∧
      (clear_all_cells counterState).historical_data = [] ∧
      (clear_all_cells counterState).current_time = counterState.current_time ∧
      (clear_all_cells counterState).tasks_data = counterState.tasks_data ∧
      (clear_history counterState).historical_data = [] ∧
      (clear_history counterState).current_time = 0 ∧
      (clear_history counterState).cells_data = counterState.cells_data ∧
      ((simulate_real_time_data zeroDraws 1000
          (setup_cells "LFP" 1 (fun _ => (1, 30))
            (clear_all_cells counterState))).historical_data ≠ [] ∧
        ∀ smp ∈ (simulate_real_time_data zeroDraws 1000
            (setup_cells "LFP" 1 (fun _ => (1, 30))
              (clear_all_cells counterState))).historical_data,
          smp.timestamp = 1000 + (counterState.current_time : ℚ))) :=
  ⟨le_refl 1,
    clear_semantics counterState "LFP" 1 (le_refl 1) (fun _ => (1, 30))
      zeroDraws 1000⟩

end BatteryApp
